import Mathlib

/-!
Shallow embedding of the AudioPlayer class of the debug console
(source file: the audio player module, class AudioPlayer).

Modelling conventions:
* JS numbers (audio-clock seconds, gain levels, normalized samples) are
  modelled as exact rationals; the float literals 0.05, 0.01, 0.3, 0.5 of the
  source become 1/20, 1/100, 3/10, 1/2.
* The browser AudioContext is modelled by an `Option CtxState` field
  (null vs. suspended/running) and the GainNode by `Option ℚ` (null vs. its
  gain.value).  The audio clock reading `audioContext.currentTime` is an
  explicit argument `now` of each operation that reads it.
* Fallible host calls (DataView.getInt16 out of range, createBuffer with a
  zero length, window.atob on malformed base64) are modelled with
  `Except Unit`; a try/catch of the source becomes total handling of the
  `Except`.  The atob step is external, so playAudioChunk receives
  `Option (List Nat)`: `none` means atob threw on the given base64 text,
  `some chars` is the decoded binary string's char codes.
* JS `Set` (insertion ordered) is modelled as a duplicate-free `List` with
  insertion at the tail; `Array.from(set).slice(0, 100)` hence is `take 100`
  and deleting those is `drop 100`.
-/

namespace DebugAudio

/-- State of a non-null browser AudioContext: suspended or running. -/
inductive CtxState where
  | suspended
  | running
deriving DecidableEq, Repr

/-- One AudioBufferSourceNode as scheduled by playAudioChunk: its scheduled
start time and buffer duration (audio-clock seconds).  `stopRaises` models
whether the underlying host `stop()` call would raise (e.g. a double stop);
the source wraps each stop in try/catch, so this flag must never influence
the result of stopAllAudio. -/
structure SourceNode where
  startTime : ℚ
  duration : ℚ
  stopRaises : Bool
deriving DecidableEq, Repr

/-- An AudioBuffer as produced by audioContext.createBuffer and filled by
convertPcmToAudioBuffer: mono channel data with a nominal length and rate. -/
structure AudioBuffer where
  length : Nat
  sampleRate : Nat
  channelData : List ℚ
deriving DecidableEq, Repr

/-- Duration of an AudioBuffer, as exposed by the host: length / sampleRate. -/
def AudioBuffer.duration (b : AudioBuffer) : ℚ :=
  (b.length : ℚ) / (b.sampleRate : ℚ)

/-- The mutable fields of class AudioPlayer. -/
structure AudioPlayer where
  audioContext : Option CtxState
  gainNode : Option ℚ
  isEnabled : Bool
  isMuted : Bool
  processedIds : List String
  frameCount : Nat
  microphoneActive : Bool
  originalVolume : ℚ
  sampleRate : Nat
  bitDepth : Nat
  channels : Nat
  nextPlaybackTime : ℚ
  currentResponseId : Option String
  activeAudioSources : List SourceNode
deriving DecidableEq, Repr

/-- Snapshot structure returned by getStats. -/
structure AudioStats where
  frameCount : Nat
  activeSourcesCount : Nat
  currentResponseId : Option String
  isEnabled : Bool
  isMuted : Bool
deriving DecidableEq, Repr

/-- Source method getStats: a point-in-time snapshot. -/
def getStats (p : AudioPlayer) : AudioStats :=
  { frameCount := p.frameCount
    activeSourcesCount := p.activeAudioSources.length
    currentResponseId := p.currentResponseId
    isEnabled := p.isEnabled
    isMuted := p.isMuted }

/-- Source method base64ToArrayBuffer, after the external atob step: storing
each char code into a Uint8Array converts it with ToUint8, i.e. mod 256. -/
def base64ToArrayBuffer (chars : List Nat) : List Nat :=
  chars.map (fun c => c % 256)

/-- Host call DataView.getInt16 with littleEndian = true: reads the bytes at
offset and offset+1, throwing (RangeError) when either is out of bounds. -/
def getInt16 (bytes : List Nat) (off : Nat) : Except Unit Int :=
  match bytes.get? off, bytes.get? (off + 1) with
  | some lo, some hi =>
      let u := lo + 256 * hi
      .ok (if u < 32768 then (u : Int) else (u : Int) - 65536)
  | _, _ => .error ()

/-- Source method convertPcmToAudioBuffer.  The JS expression
`samples = byteLength / bytesPerSample` is a real-number quotient used both
as the createBuffer length (WebIDL unsigned long conversion truncates, and
createBuffer throws NotSupportedError on a zero length) and as the bound of
`for (let i = 0; i < samples; i++)` (which therefore iterates ⌈samples⌉
times); each iteration reads an Int16 and normalizes by 2^(bitDepth-1).
Out-of-range channelData writes are ignored by the host, hence the take. -/
def convertPcmToAudioBuffer (bitDepth sampleRate : Nat) (chars : List Nat) :
    Except Unit AudioBuffer :=
  let bytes := base64ToArrayBuffer chars
  let bytesPerSample := bitDepth / 8
  let bufLen := bytes.length / bytesPerSample
  if bufLen = 0 then .error ()
  else
    (((List.range ((bytes.length + bytesPerSample - 1) / bytesPerSample)).mapM
        (fun i => getInt16 bytes (i * bytesPerSample))).map
      (fun vals =>
        { length := bufLen
          sampleRate := sampleRate
          channelData :=
            (vals.map (fun s => (Int.cast s : ℚ) / ((2 : ℚ) ^ (bitDepth - 1)))).take
              bufLen }))

/-- Source method cleanupProcessedIds: once more than 1000 ids are tracked,
delete the first 100 in insertion order. -/
def cleanupProcessedIds (p : AudioPlayer) : AudioPlayer :=
  if 1000 < p.processedIds.length then
    { p with processedIds := p.processedIds.drop 100 }
  else p

/-- Source method isDuplicate.  The guard `if (!frameId) return false` tests
JS truthiness, so a falsy frame id - absent or the empty string - always
passes and is never recorded; a seen (non-empty) id is a duplicate; a fresh
non-empty id is recorded (at the tail) and the window trimmed. -/
def isDuplicate (p : AudioPlayer) (frameId : Option String) :
    AudioPlayer × Bool :=
  match frameId with
  | none => (p, false)
  | some f =>
      if f = "" then (p, false)
      else if f ∈ p.processedIds then (p, true)
      else (cleanupProcessedIds { p with processedIds := p.processedIds ++ [f] },
            false)

/-- Body of the try block of source method playAudioChunk, entered with the
state `p3` reached after the dedup gate, response tracking and the resume of
a suspended context.  Any throw inside the block (atob on malformed base64,
convertPcmToAudioBuffer, connect on a null gain node) is caught by the
enclosing catch, which returns false and leaves the state of `p3` as it is. -/
def playAudioChunkTry (p3 : AudioPlayer) (now : ℚ)
    (base64Data : Option (List Nat)) : AudioPlayer × Bool :=
  match base64Data with
  | none => (p3, false)
  | some chars =>
      match convertPcmToAudioBuffer p3.bitDepth p3.sampleRate chars with
      | .error _ => (p3, false)
      | .ok audioBuffer =>
          match p3.gainNode with
          | none => (p3, false)
          | some _ =>
              let t :=
                if p3.nextPlaybackTime < now + 1 / 20 then now + 1 / 20
                else p3.nextPlaybackTime
              let src : SourceNode :=
                { startTime := t
                  duration := audioBuffer.duration
                  stopRaises := false }
              ({ p3 with
                  activeAudioSources := p3.activeAudioSources ++ [src]
                  nextPlaybackTime := t + audioBuffer.duration + 1 / 100
                  frameCount := p3.frameCount + 1 },
                true)

/-- Response tracking statement of playAudioChunk: a present, non-empty
responseId (JS truthiness) differing from the stored one replaces it. -/
def trackResponseId (p : AudioPlayer) (responseId : Option String) :
    AudioPlayer :=
  match responseId with
  | some r =>
      if r ≠ "" ∧ p.currentResponseId ≠ some r then
        { p with currentResponseId := some r }
      else p
  | none => p

/-- Resume statement of playAudioChunk: a suspended context is resumed. -/
def resumeIfSuspended (p : AudioPlayer) : AudioPlayer :=
  if p.audioContext = some CtxState.suspended then
    { p with audioContext := some CtxState.running }
  else p

/-- Source method playAudioChunk.  The try/catch of the source makes the
method total: every internal failure yields the boolean false, never an
exception.  The clock reading audioContext.currentTime is the argument
`now`. -/
def playAudioChunk (p : AudioPlayer) (now : ℚ) (base64Data : Option (List Nat))
    (frameId responseId : Option String) : AudioPlayer × Bool :=
  if (!p.isEnabled || p.audioContext.isNone || p.isMuted) = true then (p, false)
  else
    match isDuplicate p frameId with
    | (p1, true) => (p1, false)
    | (p1, false) =>
        playAudioChunkTry (resumeIfSuspended (trackResponseId p1 responseId))
          now base64Data

/-- Source method setVolume: clamp volume/100 into [0,1], ignored while muted
or when the gain node is null. -/
def setVolume (p : AudioPlayer) (volume : ℚ) : AudioPlayer :=
  if p.gainNode.isSome ∧ p.isMuted = false then
    { p with gainNode := some (max 0 (min 1 (volume / 100))) }
  else p

/-- Source method toggleMute: flip the flag; when a gain node exists force
its level to 0 when muted and to the fixed default 1/2 when unmuted. -/
def toggleMute (p : AudioPlayer) : AudioPlayer × Bool :=
  let m := !p.isMuted
  ({ p with
      isMuted := m
      gainNode :=
        match p.gainNode with
        | some _ => some (if m then 0 else 1 / 2)
        | none => none },
    m)

/-- Host call AudioBufferSourceNode.stop, which may raise. -/
def SourceNode.stop (s : SourceNode) : Except Unit Unit :=
  if s.stopRaises then .error () else .ok ()

/-- Source method stopAllAudio: try to stop every active source swallowing
any error, clear the active set, reset nextPlaybackTime to the current clock
when a context exists, and clear the dedup cache.  The Except records that
the only fallible steps are the guarded stop calls. -/
def stopAllAudio (p : AudioPlayer) (now : ℚ) : Except Unit AudioPlayer := do
  p.activeAudioSources.forM (fun src =>
    match src.stop with
    | _ => pure ())
  pure
    { p with
        activeAudioSources := []
        nextPlaybackTime :=
          if p.audioContext.isSome then now else p.nextPlaybackTime
        processedIds := [] }

/-- Post-state of stopAllAudio, written out for the statements below. -/
def stopResetState (p : AudioPlayer) (now : ℚ) : AudioPlayer :=
  { p with
      activeAudioSources := []
      nextPlaybackTime :=
        if p.audioContext.isSome then now else p.nextPlaybackTime
      processedIds := [] }

/-- Source method interrupt: compute the reported response (JS `||` treats
the empty string as absent), delegate to stopAllAudio, return true.  The
third component is the reported response id of the log line. -/
def interrupt (p : AudioPlayer) (now : ℚ) (responseId : Option String) :
    Except Unit (AudioPlayer × Bool × Option String) := do
  let target :=
    match responseId with
    | some r => if r = "" then p.currentResponseId else some r
    | none => p.currentResponseId
  let p' ← stopAllAudio p now
  pure (p', true, target)

/-- Source method setMicrophoneActive: a no-op when the state is unchanged;
on activation capture the pre-duck level and duck to 30% of it; on
deactivation restore the captured level. -/
def setMicrophoneActive (p : AudioPlayer) (active : Bool) : AudioPlayer :=
  if p.microphoneActive = active then p
  else
    let p1 := { p with microphoneActive := active }
    match p1.gainNode with
    | none => p1
    | some g =>
        if active then
          { p1 with originalVolume := g, gainNode := some (g * (3 / 10)) }
        else { p1 with gainNode := some p1.originalVolume }

/-- Source method isMicrophoneActive. -/
def isMicrophoneActive (p : AudioPlayer) : Bool :=
  p.microphoneActive

/-- One call to playAudioChunk in a trace: the audio clock reading at the
call and the arguments of the call. -/
structure ChunkCall where
  now : ℚ
  base64Data : Option (List Nat)
  frameId : Option String
  responseId : Option String
deriving DecidableEq, Repr

/-- A scheduling record of one accepted chunk: the audio clock at the moment
of scheduling, and the scheduled start time and duration of its source. -/
structure Sched where
  schedTime : ℚ
  startTime : ℚ
  duration : ℚ
deriving DecidableEq, Repr

/-- One playAudioChunk call together with the scheduling record it produced
(the source appended to the active set), if the chunk was accepted. -/
def playLog (p : AudioPlayer) (c : ChunkCall) : AudioPlayer × List Sched :=
  match playAudioChunk p c.now c.base64Data c.frameId c.responseId with
  | (q, true) =>
      (q, match q.activeAudioSources.getLast? with
          | some s => [{ schedTime := c.now, startTime := s.startTime,
                         duration := s.duration }]
          | none => [])
  | (q, false) => (q, [])

/-- A sequence of playAudioChunk calls with no intervening stopAllAudio,
collecting the scheduling records of the accepted chunks in order. -/
def runChunksLog : AudioPlayer → List ChunkCall → AudioPlayer × List Sched
  | p, [] => (p, [])
  | p, c :: cs =>
      let step := playLog p c
      let rest := runChunksLog step.1 cs
      (rest.1, step.2 ++ rest.2)

/-- Feeding a list of frame ids through the dedup gate, one isDuplicate call
per id (the processing order of arriving frames). -/
def processIds (p : AudioPlayer) (l : List String) : AudioPlayer :=
  l.foldl (fun q i => (isDuplicate q (some i)).1) p

/-- A freshly initialized enabled player: running context, gain 1/2, default
format parameters, empty dedup window and active set. -/
def mkPlayer : AudioPlayer :=
  { audioContext := some CtxState.running
    gainNode := some (1 / 2)
    isEnabled := true
    isMuted := false
    processedIds := []
    frameCount := 0
    microphoneActive := false
    originalVolume := 1 / 2
    sampleRate := 24000
    bitDepth := 16
    channels := 1
    nextPlaybackTime := 0
    currentResponseId := none
    activeAudioSources := [] }

/-- A disabled player, for exercising the guard path. -/
def disabledPlayer : AudioPlayer :=
  { mkPlayer with isEnabled := false }

/-- A player with one in-flight source whose host stop call would raise, and
a non-empty dedup window, for exercising stopAllAudio. -/
def busyPlayer : AudioPlayer :=
  { mkPlayer with
      activeAudioSources :=
        [{ startTime := 1 / 20, duration := 1 / 24000, stopRaises := true }]
      processedIds := ["f1"]
      nextPlaybackTime := 1 }

/-- A demo call carrying one 16-bit zero sample at clock reading 0. -/
def demoCall1 : ChunkCall :=
  { now := 0, base64Data := some [0, 0], frameId := some "f1",
    responseId := none }

/-- The source node that demoCall1 schedules on mkPlayer. -/
def demoSrc : SourceNode :=
  { startTime := 1 / 20, duration := 1 / 24000, stopRaises := false }

/-- The scheduling record that demoCall1 produces on mkPlayer. -/
def demoSched : Sched :=
  { schedTime := 0, startTime := 1 / 20, duration := 1 / 24000 }

/-- The little-endian byte encoding of the sample vector
[0, 16384, -16384, 32767, -32768]. -/
def pcmVec : List Nat :=
  [0, 0, 0, 64, 0, 192, 255, 127, 0, 128]

/-- Value of the i-th decoded sample as the spec describes it: the signed
little-endian 16-bit integer at byte offset 2i, divided by 2^15. -/
def pcmSampleValue (chars : List Nat) (i : Nat) : ℚ :=
  let lo := chars.getD (2 * i) 0 % 256
  let hi := chars.getD (2 * i + 1) 0 % 256
  let u := lo + 256 * hi
  ((if u < 32768 then (u : Int) else (u : Int) - 65536 : Int) : ℚ) / 32768

/-- 1001 pairwise distinct non-empty frame ids, for the dedup-bound
witness. -/
def witIds : List String :=
  (List.range 1001).map (fun n => String.mk (List.replicate (n + 1) 'a'))

/-- 1001 pairwise distinct ids whose first element is the empty string, for
the dedup-bound counterexample: the code's falsy-id check never records the
empty id. -/
def cexIds : List String :=
  "" :: witIds.take 1000

/-- State of mkPlayer after one accepted empty-frame-id call of demoCall1's
payload at clock 0: nothing is recorded in the dedup window. -/
def demoAfterEmpty1 : AudioPlayer :=
  { mkPlayer with
      frameCount := 1
      nextPlaybackTime := 1 / 20 + 1 / 24000 + 1 / 100
      activeAudioSources := [demoSrc] }

/-! Helper lemmas about the shapes of the operation results. -/

lemma AudioBuffer.duration_nonneg (b : AudioBuffer) : 0 ≤ b.duration := by
  unfold AudioBuffer.duration
  positivity

lemma cleanupProcessedIds_shape (p : AudioPlayer) :
    ∃ ids, cleanupProcessedIds p = { p with processedIds := ids } := by
  unfold cleanupProcessedIds
  split
  · exact ⟨_, rfl⟩
  · exact ⟨_, rfl⟩

lemma isDuplicate_none (p : AudioPlayer) : isDuplicate p none = (p, false) := rfl

lemma isDuplicate_empty (p : AudioPlayer) :
    isDuplicate p (some "") = (p, false) := by
  simp [isDuplicate]

lemma isDuplicate_mem {p : AudioPlayer} {fid : String} (hne : fid ≠ "")
    (h : fid ∈ p.processedIds) : isDuplicate p (some fid) = (p, true) := by
  simp [isDuplicate, hne, h]

lemma isDuplicate_not_mem {p : AudioPlayer} {fid : String} (hne : fid ≠ "")
    (h : fid ∉ p.processedIds) :
    isDuplicate p (some fid) =
      (cleanupProcessedIds { p with processedIds := p.processedIds ++ [fid] },
        false) := by
  simp [isDuplicate, hne, h]

lemma isDuplicate_true {p : AudioPlayer} {f : Option String} {p1 : AudioPlayer}
    (h : isDuplicate p f = (p1, true)) : p1 = p := by
  match f with
  | none => simp [isDuplicate] at h
  | some fid =>
      by_cases hne : fid = ""
      · subst hne
        rw [isDuplicate_empty] at h
        simp at h
      · by_cases hm : fid ∈ p.processedIds
        · rw [isDuplicate_mem hne hm] at h
          exact (Prod.mk.injEq .. ▸ h).1.symm
        · rw [isDuplicate_not_mem hne hm] at h
          simp at h

lemma isDuplicate_shape (p : AudioPlayer) (f : Option String) :
    ∃ ids, (isDuplicate p f).1 = { p with processedIds := ids } := by
  match f with
  | none => exact ⟨p.processedIds, rfl⟩
  | some fid =>
      by_cases hne : fid = ""
      · subst hne
        rw [isDuplicate_empty]
        exact ⟨p.processedIds, rfl⟩
      · by_cases hm : fid ∈ p.processedIds
        · rw [isDuplicate_mem hne hm]
          exact ⟨p.processedIds, rfl⟩
        · rw [isDuplicate_not_mem hne hm]
          obtain ⟨ids, hids⟩ :=
            cleanupProcessedIds_shape { p with processedIds := p.processedIds ++ [fid] }
          exact ⟨ids, by simp [hids]⟩

lemma playAudioChunk_guard {p : AudioPlayer} {now : ℚ} {d : Option (List Nat)}
    {f r : Option String}
    (h : (!p.isEnabled || p.audioContext.isNone || p.isMuted) = true) :
    playAudioChunk p now d f r = (p, false) := by
  simp [playAudioChunk, h]

lemma playAudioChunk_dup {p : AudioPlayer} {now : ℚ} {d : Option (List Nat)}
    {fid : String} {r : Option String}
    (hg : (!p.isEnabled || p.audioContext.isNone || p.isMuted) = false)
    (hne : fid ≠ "") (hm : fid ∈ p.processedIds) :
    playAudioChunk p now d (some fid) r = (p, false) := by
  simp only [playAudioChunk, hg, Bool.false_eq_true, if_false,
    isDuplicate_mem hne hm]

lemma playAudioChunkTry_false {p : AudioPlayer} {now : ℚ}
    {d : Option (List Nat)} {q : AudioPlayer}
    (h : playAudioChunkTry p now d = (q, false)) : q = p := by
  unfold playAudioChunkTry at h
  split at h
  · injection h with h1 h2
    exact h1.symm
  · split at h
    · injection h with h1 h2
      exact h1.symm
    · split at h
      · injection h with h1 h2
        exact h1.symm
      · injection h with h1 h2
        simp at h2

lemma playAudioChunkTry_true {p : AudioPlayer} {now : ℚ}
    {d : Option (List Nat)} {q : AudioPlayer}
    (h : playAudioChunkTry p now d = (q, true)) :
    ∃ src : SourceNode,
      q = { p with
              activeAudioSources := p.activeAudioSources ++ [src]
              nextPlaybackTime := src.startTime + src.duration + 1 / 100
              frameCount := p.frameCount + 1 }
      ∧ src.startTime =
          (if p.nextPlaybackTime < now + 1 / 20 then now + 1 / 20
           else p.nextPlaybackTime)
      ∧ 0 ≤ src.duration := by
  unfold playAudioChunkTry at h
  cases d with
  | none =>
      dsimp only at h
      injection h with h1 h2
      simp at h2
  | some chars =>
      dsimp only at h
      cases hconv : convertPcmToAudioBuffer p.bitDepth p.sampleRate chars with
      | error e =>
          rw [hconv] at h
          injection h with h1 h2
          simp at h2
      | ok audioBuffer =>
          rw [hconv] at h
          cases hg : p.gainNode with
          | none =>
              rw [hg] at h
              injection h with h1 h2
              simp at h2
          | some g =>
              rw [hg] at h
              injection h with h1 h2
              exact ⟨{ startTime :=
                         if p.nextPlaybackTime < now + 1 / 20 then
                           now + 1 / 20
                         else p.nextPlaybackTime
                       duration := audioBuffer.duration
                       stopRaises := false },
                  h1.symm, rfl, AudioBuffer.duration_nonneg audioBuffer⟩

lemma trackResponseId_shape (p : AudioPlayer) (r : Option String) :
    ∃ rid, trackResponseId p r = { p with currentResponseId := rid } := by
  match r with
  | none => exact ⟨p.currentResponseId, rfl⟩
  | some s =>
      by_cases hc : s ≠ "" ∧ p.currentResponseId ≠ some s
      · exact ⟨some s, by unfold trackResponseId; dsimp only; rw [if_pos hc]⟩
      · exact ⟨p.currentResponseId,
          by unfold trackResponseId; dsimp only; rw [if_neg hc]⟩

lemma resumeIfSuspended_shape (p : AudioPlayer) :
    ∃ ctx, resumeIfSuspended p = { p with audioContext := ctx }
      ∧ (ctx = p.audioContext ∨ ctx = some CtxState.running) := by
  by_cases hc : p.audioContext = some CtxState.suspended
  · exact ⟨some CtxState.running,
      by unfold resumeIfSuspended; rw [if_pos hc], Or.inr rfl⟩
  · exact ⟨p.audioContext,
      by unfold resumeIfSuspended; rw [if_neg hc], Or.inl rfl⟩

lemma playAudioChunk_false_shape {p : AudioPlayer} {now : ℚ}
    {d : Option (List Nat)} {f r : Option String} {q : AudioPlayer}
    (h : playAudioChunk p now d f r = (q, false)) :
    ∃ ids rid ctx,
      q = { p with processedIds := ids, currentResponseId := rid,
                   audioContext := ctx }
      ∧ (ctx = p.audioContext ∨ ctx = some CtxState.running) := by
  simp only [playAudioChunk] at h
  split at h
  · injection h with h1 h2
    subst h1
    exact ⟨_, _, _, rfl, Or.inl rfl⟩
  · split at h
    case _ p1 heq =>
      obtain rfl := isDuplicate_true heq
      injection h with h1 h2
      subst h1
      exact ⟨_, _, _, rfl, Or.inl rfl⟩
    case _ p1 heq =>
      obtain ⟨ids, hsh⟩ := isDuplicate_shape p f
      rw [heq] at hsh
      simp only at hsh
      subst hsh
      obtain ⟨rid, hrid⟩ := trackResponseId_shape
        { p with processedIds := ids } r
      rw [hrid] at h
      obtain ⟨ctx, hctx, hor⟩ := resumeIfSuspended_shape
        { p with processedIds := ids, currentResponseId := rid }
      rw [hctx] at h
      obtain rfl := playAudioChunkTry_false h
      exact ⟨ids, rid, ctx, rfl, hor⟩

lemma playAudioChunk_true_shape {p : AudioPlayer} {now : ℚ}
    {d : Option (List Nat)} {f r : Option String} {q : AudioPlayer}
    (h : playAudioChunk p now d f r = (q, true)) :
    ∃ (ids : List String) (rid : Option String) (ctx : Option CtxState)
      (src : SourceNode),
      q = { p with processedIds := ids, currentResponseId := rid,
                   audioContext := ctx,
                   activeAudioSources := p.activeAudioSources ++ [src],
                   nextPlaybackTime := src.startTime + src.duration + 1 / 100,
                   frameCount := p.frameCount + 1 }
      ∧ (ctx = p.audioContext ∨ ctx = some CtxState.running)
      ∧ src.startTime =
          (if p.nextPlaybackTime < now + 1 / 20 then now + 1 / 20
           else p.nextPlaybackTime)
      ∧ 0 ≤ src.duration := by
  simp only [playAudioChunk] at h
  split at h
  · injection h with h1 h2
    simp at h2
  · split at h
    case _ p1 heq =>
      injection h with h1 h2
      simp at h2
    case _ p1 heq =>
      obtain ⟨ids, hsh⟩ := isDuplicate_shape p f
      rw [heq] at hsh
      simp only at hsh
      subst hsh
      obtain ⟨rid, hrid⟩ := trackResponseId_shape
        { p with processedIds := ids } r
      rw [hrid] at h
      obtain ⟨ctx, hctx, hor⟩ := resumeIfSuspended_shape
        { p with processedIds := ids, currentResponseId := rid }
      rw [hctx] at h
      obtain ⟨src, hq, hst, hdur⟩ := playAudioChunkTry_true h
      exact ⟨ids, rid, ctx, src, hq, hor, hst, hdur⟩

lemma playAudioChunk_false_fields {p : AudioPlayer} {now : ℚ}
    {d : Option (List Nat)} {f r : Option String} {q : AudioPlayer}
    (h : playAudioChunk p now d f r = (q, false)) :
    q.nextPlaybackTime = p.nextPlaybackTime ∧ q.frameCount = p.frameCount ∧
      q.activeAudioSources = p.activeAudioSources := by
  obtain ⟨ids, rid, ctx, rfl, -⟩ := playAudioChunk_false_shape h
  exact ⟨rfl, rfl, rfl⟩

lemma guard_false_parts {p : AudioPlayer}
    (hgu : (!p.isEnabled || p.audioContext.isNone || p.isMuted) = false) :
    p.isEnabled = true ∧ p.audioContext.isNone = false ∧ p.isMuted = false := by
  simp only [Bool.or_eq_false_iff] at hgu
  obtain ⟨⟨h1, h2⟩, h3⟩ := hgu
  simp only [Bool.not_eq_false'] at h1
  exact ⟨h1, h2, h3⟩

lemma playAudioChunk_guard_preserved {p : AudioPlayer} {now : ℚ}
    {d : Option (List Nat)} {f r : Option String} {q : AudioPlayer} {b : Bool}
    (hgu : (!p.isEnabled || p.audioContext.isNone || p.isMuted) = false)
    (h : playAudioChunk p now d f r = (q, b)) :
    (!q.isEnabled || q.audioContext.isNone || q.isMuted) = false ∧
      q.isMuted = p.isMuted ∧ q.isEnabled = p.isEnabled ∧
      q.gainNode = p.gainNode := by
  obtain ⟨h1, h2, h3⟩ := guard_false_parts hgu
  cases b with
  | false =>
      obtain ⟨ids, rid, ctx, rfl, hor⟩ := playAudioChunk_false_shape h
      rcases hor with rfl | rfl
      · exact ⟨hgu, rfl, rfl, rfl⟩
      · refine ⟨?_, rfl, rfl, rfl⟩
        simp [h1, h3]
  | true =>
      obtain ⟨ids, rid, ctx, src, rfl, hor, -, -⟩ := playAudioChunk_true_shape h
      rcases hor with rfl | rfl
      · exact ⟨hgu, rfl, rfl, rfl⟩
      · refine ⟨?_, rfl, rfl, rfl⟩
        simp [h1, h3]

lemma playAudioChunk_next_mono (p : AudioPlayer) (now : ℚ)
    (d : Option (List Nat)) (f r : Option String) :
    p.nextPlaybackTime ≤ (playAudioChunk p now d f r).1.nextPlaybackTime := by
  cases hres : playAudioChunk p now d f r with
  | mk q b =>
      cases b with
      | false =>
          obtain ⟨h1, -, -⟩ := playAudioChunk_false_fields hres
          simp [h1]
      | true =>
          obtain ⟨ids, rid, ctx, src, rfl, -, hst, hdur⟩ :=
            playAudioChunk_true_shape hres
          simp only
          rw [hst]
          split
          · linarith
          · linarith

lemma mem_cleanup_append (p : AudioPlayer) (fid : String) :
    fid ∈ (cleanupProcessedIds
      { p with processedIds := p.processedIds ++ [fid] }).processedIds := by
  unfold cleanupProcessedIds
  split
  case _ hlen =>
    simp only [List.length_append, List.length_singleton] at hlen
    have h100 : 100 ≤ p.processedIds.length := by omega
    simp only
    rw [List.drop_append_of_le_length h100]
    simp
  case _ => simp

lemma playAudioChunkTry_processedIds (p : AudioPlayer) (now : ℚ)
    (d : Option (List Nat)) :
    (playAudioChunkTry p now d).1.processedIds = p.processedIds := by
  cases hres : playAudioChunkTry p now d with
  | mk q b =>
      cases b with
      | false =>
          obtain rfl := playAudioChunkTry_false hres
          rfl
      | true =>
          obtain ⟨src, rfl, -, -⟩ := playAudioChunkTry_true hres
          rfl

lemma playAudioChunk_mem_processedIds {p : AudioPlayer} {now : ℚ}
    {d : Option (List Nat)} {r : Option String} {fid : String} {q : AudioPlayer}
    {b : Bool}
    (hgu : (!p.isEnabled || p.audioContext.isNone || p.isMuted) = false)
    (hne : fid ≠ "")
    (h : playAudioChunk p now d (some fid) r = (q, b)) :
    fid ∈ q.processedIds := by
  by_cases hm : fid ∈ p.processedIds
  · rw [playAudioChunk_dup hgu hne hm] at h
    injection h with h1 h2
    subst h1
    exact hm
  · simp only [playAudioChunk, hgu, Bool.false_eq_true, if_false,
      isDuplicate_not_mem hne hm] at h
    obtain ⟨rid, hrid⟩ := trackResponseId_shape
      (cleanupProcessedIds { p with processedIds := p.processedIds ++ [fid] }) r
    rw [hrid] at h
    obtain ⟨ctx, hctx, -⟩ := resumeIfSuspended_shape
      { cleanupProcessedIds { p with processedIds := p.processedIds ++ [fid] }
          with currentResponseId := rid }
    rw [hctx] at h
    have hpres := playAudioChunkTry_processedIds
      { cleanupProcessedIds { p with processedIds := p.processedIds ++ [fid] }
          with currentResponseId := rid, audioContext := ctx } now d
    rw [h] at hpres
    simp only at hpres
    rw [hpres]
    exact mem_cleanup_append p fid

lemma forM_stop_ok (l : List SourceNode) :
    (l.forM (fun src =>
      match src.stop with
      | _ => pure ())) = (Except.ok () : Except Unit Unit) := by
  induction l with
  | nil => rfl
  | cons s t ih =>
      rw [List.forM_cons']
      cases s.stop <;> simpa using ih

lemma stopAllAudio_ok (p : AudioPlayer) (now : ℚ) :
    stopAllAudio p now = Except.ok (stopResetState p now) := by
  unfold stopAllAudio stopResetState
  rw [forM_stop_ok]
  rfl

lemma duck_once {p : AudioPlayer} {v : ℚ}
    (hmic : p.microphoneActive = false) (hg : p.gainNode = some v) :
    setMicrophoneActive p true =
      { p with microphoneActive := true, originalVolume := v,
               gainNode := some (v * (3 / 10)) } := by
  unfold setMicrophoneActive
  rw [if_neg (by simp [hmic])]
  simp [hg]

lemma duck_idem {p : AudioPlayer} (hmic : p.microphoneActive = true) :
    setMicrophoneActive p true = p := by
  unfold setMicrophoneActive
  rw [if_pos hmic]

lemma playLog_false {p : AudioPlayer} {c : ChunkCall} {q : AudioPlayer}
    (h : playAudioChunk p c.now c.base64Data c.frameId c.responseId =
      (q, false)) :
    playLog p c = (q, []) := by
  unfold playLog
  rw [h]

lemma playLog_true {p : AudioPlayer} {c : ChunkCall} {q : AudioPlayer}
    (h : playAudioChunk p c.now c.base64Data c.frameId c.responseId =
      (q, true)) :
    ∃ src : SourceNode,
      playLog p c = (q, [{ schedTime := c.now, startTime := src.startTime,
                           duration := src.duration }])
      ∧ src.startTime =
          (if p.nextPlaybackTime < c.now + 1 / 20 then c.now + 1 / 20
           else p.nextPlaybackTime)
      ∧ 0 ≤ src.duration
      ∧ q.nextPlaybackTime = src.startTime + src.duration + 1 / 100 := by
  obtain ⟨ids, rid, ctx, src, hq, hor, hst, hdur⟩ := playAudioChunk_true_shape h
  refine ⟨src, ?_, hst, hdur, by rw [hq]⟩
  unfold playLog
  rw [h, hq]
  simp [List.getLast?_concat]

lemma start_bounds {p : AudioPlayer} {src : SourceNode} {now : ℚ}
    (hst : src.startTime =
      (if p.nextPlaybackTime < now + 1 / 20 then now + 1 / 20
       else p.nextPlaybackTime)) :
    p.nextPlaybackTime ≤ src.startTime ∧ now + 1 / 20 ≤ src.startTime := by
  rw [hst]
  split
  case _ hlt => exact ⟨le_of_lt hlt, le_refl _⟩
  case _ hge => exact ⟨le_refl _, le_of_not_lt hge⟩

lemma runChunksLog_spec (cs : List ChunkCall) : ∀ p : AudioPlayer,
    p.nextPlaybackTime ≤ (runChunksLog p cs).1.nextPlaybackTime
    ∧ (∀ s ∈ (runChunksLog p cs).2,
        s.schedTime + 1 / 20 ≤ s.startTime ∧
        p.nextPlaybackTime ≤ s.startTime ∧
        s.startTime + s.duration + 1 / 100 ≤
          (runChunksLog p cs).1.nextPlaybackTime)
    ∧ List.Chain' (fun a b => a.startTime + a.duration + 1 / 100 ≤ b.startTime)
        (runChunksLog p cs).2 := by
  induction cs with
  | nil =>
      intro p
      exact ⟨le_refl _, by simp [runChunksLog], by simp [runChunksLog]⟩
  | cons c cs ih =>
      intro p
      cases hres : playAudioChunk p c.now c.base64Data c.frameId c.responseId
        with
      | mk q b =>
          cases b with
          | false =>
              have hnext : q.nextPlaybackTime = p.nextPlaybackTime :=
                (playAudioChunk_false_fields hres).1
              obtain ⟨hmono, helem, hchain⟩ := ih q
              simp only [runChunksLog, playLog_false hres]
              refine ⟨by rw [← hnext]; exact hmono, ?_, by simpa using hchain⟩
              intro s hs
              simp only [List.nil_append] at hs
              obtain ⟨h1, h2, h3⟩ := helem s hs
              exact ⟨h1, by rw [← hnext]; exact h2, h3⟩
          | true =>
              obtain ⟨src, hlog, hst, hdur, hqnext⟩ := playLog_true hres
              obtain ⟨hple, hnowle⟩ := start_bounds hst
              obtain ⟨hmono, helem, hchain⟩ := ih q
              have hque : q.nextPlaybackTime ≤
                  (runChunksLog q cs).1.nextPlaybackTime := hmono
              simp only [runChunksLog, hlog]
              refine ⟨?_, ?_, ?_⟩
              · calc p.nextPlaybackTime ≤ src.startTime := hple
                  _ ≤ src.startTime + src.duration + 1 / 100 := by linarith
                  _ = q.nextPlaybackTime := hqnext.symm
                  _ ≤ _ := hque
              · intro s hs
                rcases List.mem_append.mp hs with hs0 | hrest
                · have : s = { schedTime := c.now, startTime := src.startTime,
                               duration := src.duration } := by
                    simpa using hs0
                  subst this
                  refine ⟨hnowle, hple, ?_⟩
                  simp only
                  calc src.startTime + src.duration + 1 / 100
                      = q.nextPlaybackTime := hqnext.symm
                    _ ≤ _ := hque
                · obtain ⟨h1, h2, h3⟩ := helem s hrest
                  refine ⟨h1, ?_, h3⟩
                  calc p.nextPlaybackTime ≤ src.startTime := hple
                    _ ≤ src.startTime + src.duration + 1 / 100 := by linarith
                    _ = q.nextPlaybackTime := hqnext.symm
                    _ ≤ s.startTime := h2
              · simp only [List.singleton_append]
                refine List.chain'_cons'.mpr ⟨?_, hchain⟩
                intro hd hhd
                have hmem : hd ∈ (runChunksLog q cs).2 :=
                  List.mem_of_mem_head? hhd
                obtain ⟨-, h2, -⟩ := helem hd hmem
                simp only
                calc src.startTime + src.duration + 1 / 100
                    = q.nextPlaybackTime := hqnext.symm
                  _ ≤ hd.startTime := h2

lemma playAudioChunk_fresh {p : AudioPlayer} {now : ℚ}
    {d : Option (List Nat)} {r : Option String} {fid : String}
    (hgu : (!p.isEnabled || p.audioContext.isNone || p.isMuted) = false)
    (hne : fid ≠ "") (hfresh : fid ∉ p.processedIds) :
    playAudioChunk p now d (some fid) r =
      playAudioChunkTry (resumeIfSuspended (trackResponseId
        (cleanupProcessedIds { p with processedIds := p.processedIds ++ [fid] })
        r)) now d := by
  simp only [playAudioChunk, hgu, Bool.false_eq_true, if_false,
    isDuplicate_not_mem hne hfresh]

lemma playAudioChunk_emptyId {p : AudioPlayer} {now : ℚ}
    {d : Option (List Nat)} {r : Option String}
    (hgu : (!p.isEnabled || p.audioContext.isNone || p.isMuted) = false) :
    playAudioChunk p now d (some "") r =
      playAudioChunkTry (resumeIfSuspended (trackResponseId p r)) now d := by
  simp only [playAudioChunk, hgu, Bool.false_eq_true, if_false,
    isDuplicate_empty]

lemma playAudioChunkTry_ok {p : AudioPlayer} {now : ℚ} {chars : List Nat}
    {b : AudioBuffer} {g : ℚ}
    (hconv : convertPcmToAudioBuffer p.bitDepth p.sampleRate chars =
      Except.ok b)
    (hg : p.gainNode = some g) :
    playAudioChunkTry p now (some chars) =
      ({ p with
          activeAudioSources := p.activeAudioSources ++
            [{ startTime :=
                 if p.nextPlaybackTime < now + 1 / 20 then now + 1 / 20
                 else p.nextPlaybackTime
               duration := b.duration
               stopRaises := false }]
          nextPlaybackTime :=
            (if p.nextPlaybackTime < now + 1 / 20 then now + 1 / 20
             else p.nextPlaybackTime) + b.duration + 1 / 100
          frameCount := p.frameCount + 1 }, true) := by
  unfold playAudioChunkTry
  dsimp only
  rw [hconv, hg]

lemma playAudioChunkTry_err {p : AudioPlayer} {now : ℚ} {chars : List Nat}
    (hconv : convertPcmToAudioBuffer p.bitDepth p.sampleRate chars =
      Except.error ()) :
    playAudioChunkTry p now (some chars) = (p, false) := by
  unfold playAudioChunkTry
  dsimp only
  rw [hconv]

lemma convert_zeroPair : convertPcmToAudioBuffer 16 24000 [0, 0] =
    Except.ok { length := 1, sampleRate := 24000, channelData := [0] } := by
  norm_num [convertPcmToAudioBuffer, base64ToArrayBuffer, getInt16,
    List.range_succ, List.mapM, List.mapM.loop, Except.map]

lemma convert_oddByte : convertPcmToAudioBuffer 16 24000 [0] =
    Except.error () := rfl

lemma evalPlay1 : playAudioChunk mkPlayer 0 (some [0, 0]) (some "f1") none =
    ({ mkPlayer with
        processedIds := ["f1"]
        frameCount := 1
        nextPlaybackTime := 1 / 20 + 1 / 24000 + 1 / 100
        activeAudioSources := [demoSrc] }, true) := by
  have hgu : (!mkPlayer.isEnabled || mkPlayer.audioContext.isNone ||
      mkPlayer.isMuted) = false := rfl
  have hfr : "f1" ∉ mkPlayer.processedIds := by simp [mkPlayer]
  rw [playAudioChunk_fresh hgu (by decide) hfr]
  have h1 : cleanupProcessedIds
      { mkPlayer with processedIds := mkPlayer.processedIds ++ ["f1"] } =
      { mkPlayer with processedIds := ["f1"] } := by
    norm_num [cleanupProcessedIds, mkPlayer]
  rw [h1]
  have h2 : trackResponseId { mkPlayer with processedIds := ["f1"] } none =
      { mkPlayer with processedIds := ["f1"] } := rfl
  rw [h2]
  have h3 : resumeIfSuspended { mkPlayer with processedIds := ["f1"] } =
      { mkPlayer with processedIds := ["f1"] } := by
    norm_num [resumeIfSuspended, mkPlayer]
  rw [h3]
  rw [playAudioChunkTry_ok convert_zeroPair rfl]
  norm_num [AudioBuffer.duration, mkPlayer, demoSrc]

lemma evalLog1 : (runChunksLog mkPlayer [demoCall1]).2 = [demoSched] := by
  simp only [runChunksLog, playLog, demoCall1]
  rw [evalPlay1]
  norm_num [demoSrc, demoSched, runChunksLog]

lemma processIds_cons (p : AudioPlayer) (i : String) (t : List String) :
    processIds p (i :: t) = processIds (isDuplicate p (some i)).1 t := by
  simp [processIds]

lemma processIds_fill (l : List String) : ∀ p : AudioPlayer,
    (∀ i ∈ l, i ≠ "") →
    (p.processedIds ++ l).Nodup → p.processedIds.length + l.length ≤ 1000 →
    (processIds p l).processedIds = p.processedIds ++ l := by
  induction l with
  | nil =>
      intro p hne hnd hlen
      simp [processIds]
  | cons i t ih =>
      intro p hne hnd hlen
      have hine : i ≠ "" := hne i (List.mem_cons_self i t)
      have hmem : i ∉ p.processedIds := fun hc =>
        (List.nodup_append.mp hnd).2.2 hc (List.mem_cons_self i t)
      have hlen1 : ¬ 1000 < (p.processedIds ++ [i]).length := by
        simp only [List.length_append, List.length_singleton]
        simp only [List.length_cons] at hlen
        omega
      have hstep : (isDuplicate p (some i)).1 =
          { p with processedIds := p.processedIds ++ [i] } := by
        rw [isDuplicate_not_mem hine hmem]
        simp only
        unfold cleanupProcessedIds
        rw [if_neg hlen1]
      have hnd2 :
          (({ p with processedIds := p.processedIds ++ [i] } :
            AudioPlayer).processedIds ++ t).Nodup := by
        simpa [List.append_assoc] using hnd
      have hlen2 : ({ p with processedIds := p.processedIds ++ [i] } :
          AudioPlayer).processedIds.length + t.length ≤ 1000 := by
        simp only [List.length_append, List.length_singleton]
        simp only [List.length_cons] at hlen
        omega
      rw [processIds_cons, hstep,
        ih _ (fun j hj => hne j (List.mem_cons_of_mem i hj)) hnd2 hlen2]
      simp [List.append_assoc]

lemma processIds_trim (l : List String) (p : AudioPlayer)
    (hp : p.processedIds = []) (hne : ∀ i ∈ l, i ≠ "")
    (hnd : l.Nodup) (hlen : l.length = 1001) :
    (processIds p l).processedIds = l.drop 100 := by
  obtain ⟨x, hx⟩ : ∃ x, l.drop 1000 = [x] := by
    apply List.length_eq_one.mp
    simp [hlen]
  have hsplit : l.take 1000 ++ [x] = l := by
    rw [← hx]
    exact List.take_append_drop 1000 l
  have hnd1000 : (p.processedIds ++ l.take 1000).Nodup := by
    rw [hp, List.nil_append]
    exact List.Nodup.sublist (List.take_sublist 1000 l) hnd
  have hlen1000 : p.processedIds.length + (l.take 1000).length ≤ 1000 := by
    simp [hp, List.length_take, hlen]
  have hnetake : ∀ i ∈ l.take 1000, i ≠ "" := fun i hi =>
    hne i (List.take_subset 1000 l hi)
  have hxne : x ≠ "" := hne x (by rw [← hsplit]; simp)
  have hfill : (processIds p (l.take 1000)).processedIds = l.take 1000 := by
    rw [processIds_fill (l.take 1000) p hnetake hnd1000 hlen1000, hp,
      List.nil_append]
  have hxfresh : x ∉ (processIds p (l.take 1000)).processedIds := by
    rw [hfill]
    intro hc
    have : ¬ (l.take 1000 ++ [x]).Nodup := by
      intro hcon
      exact (List.nodup_append.mp hcon).2.2 hc (List.mem_singleton_self x)
    exact this (hsplit.symm ▸ hnd)
  have hfold : processIds p l = (isDuplicate (processIds p (l.take 1000))
      (some x)).1 := by
    conv_lhs => rw [← hsplit]
    rw [show processIds p (l.take 1000 ++ [x]) =
      processIds (processIds p (l.take 1000)) [x] by
        simp [processIds, List.foldl_append]]
    simp [processIds]
  rw [hfold, isDuplicate_not_mem hxne hxfresh]
  simp only
  unfold cleanupProcessedIds
  rw [if_pos]
  · simp only [hfill]
    rw [hsplit]
  · simp [hfill, List.length_take, hlen]

lemma cleanupProcessedIds_bitDepth (p : AudioPlayer) :
    (cleanupProcessedIds p).bitDepth = p.bitDepth := by
  obtain ⟨ids, h⟩ := cleanupProcessedIds_shape p
  rw [h]

lemma cleanupProcessedIds_sampleRate (p : AudioPlayer) :
    (cleanupProcessedIds p).sampleRate = p.sampleRate := by
  obtain ⟨ids, h⟩ := cleanupProcessedIds_shape p
  rw [h]

lemma cleanupProcessedIds_gainNode (p : AudioPlayer) :
    (cleanupProcessedIds p).gainNode = p.gainNode := by
  obtain ⟨ids, h⟩ := cleanupProcessedIds_shape p
  rw [h]

lemma trackResponseId_bitDepth (p : AudioPlayer) (r : Option String) :
    (trackResponseId p r).bitDepth = p.bitDepth := by
  obtain ⟨rid, h⟩ := trackResponseId_shape p r
  rw [h]

lemma trackResponseId_sampleRate (p : AudioPlayer) (r : Option String) :
    (trackResponseId p r).sampleRate = p.sampleRate := by
  obtain ⟨rid, h⟩ := trackResponseId_shape p r
  rw [h]

lemma trackResponseId_gainNode (p : AudioPlayer) (r : Option String) :
    (trackResponseId p r).gainNode = p.gainNode := by
  obtain ⟨rid, h⟩ := trackResponseId_shape p r
  rw [h]

lemma resumeIfSuspended_bitDepth (p : AudioPlayer) :
    (resumeIfSuspended p).bitDepth = p.bitDepth := by
  obtain ⟨ctx, h, -⟩ := resumeIfSuspended_shape p
  rw [h]

lemma resumeIfSuspended_sampleRate (p : AudioPlayer) :
    (resumeIfSuspended p).sampleRate = p.sampleRate := by
  obtain ⟨ctx, h, -⟩ := resumeIfSuspended_shape p
  rw [h]

lemma resumeIfSuspended_gainNode (p : AudioPlayer) :
    (resumeIfSuspended p).gainNode = p.gainNode := by
  obtain ⟨ctx, h, -⟩ := resumeIfSuspended_shape p
  rw [h]

lemma playAudioChunk_accepts {p : AudioPlayer} {now : ℚ} {chars : List Nat}
    {fid : String} {r : Option String} {b : AudioBuffer} {g : ℚ}
    (hgu : (!p.isEnabled || p.audioContext.isNone || p.isMuted) = false)
    (hne : fid ≠ "") (hfresh : fid ∉ p.processedIds)
    (hg : p.gainNode = some g)
    (hdec : convertPcmToAudioBuffer p.bitDepth p.sampleRate chars =
      Except.ok b) :
    (playAudioChunk p now (some chars) (some fid) r).2 = true := by
  rw [playAudioChunk_fresh hgu hne hfresh]
  generalize hQ : resumeIfSuspended (trackResponseId
    (cleanupProcessedIds { p with processedIds := p.processedIds ++ [fid] })
    r) = Q
  have hbd : Q.bitDepth = p.bitDepth := by
    rw [← hQ, resumeIfSuspended_bitDepth, trackResponseId_bitDepth,
      cleanupProcessedIds_bitDepth]
  have hsr : Q.sampleRate = p.sampleRate := by
    rw [← hQ, resumeIfSuspended_sampleRate, trackResponseId_sampleRate,
      cleanupProcessedIds_sampleRate]
  have hgn : Q.gainNode = some g := by
    rw [← hQ, resumeIfSuspended_gainNode, trackResponseId_gainNode,
      cleanupProcessedIds_gainNode]
    exact hg
  have hconv : convertPcmToAudioBuffer Q.bitDepth Q.sampleRate chars =
      Except.ok b := by
    rw [hbd, hsr]
    exact hdec
  rw [playAudioChunkTry_ok hconv hgn]

lemma get?_eq_some_getD {α : Type} (l : List α) (k : Nat) (d : α)
    (h : k < l.length) : l.get? k = some (l.getD k d) := by
  rw [List.getD_eq_get?]
  cases hk : l.get? k with
  | none =>
      have := List.get?_eq_none.mp hk
      omega
  | some a => rfl

lemma mapM_ok_of_forall {α β : Type} (f : α → Except Unit β) (g : α → β) :
    ∀ l : List α, (∀ x ∈ l, f x = .ok (g x)) → l.mapM f = .ok (l.map g) := by
  intro l
  induction l with
  | nil => intro h; rfl
  | cons a t ih =>
      intro h
      rw [List.mapM_cons, h a (List.mem_cons_self a t),
        ih (fun x hx => h x (List.mem_cons_of_mem a hx))]
      rfl

lemma mapM_ok_forall {α β : Type} (f : α → Except Unit β) :
    ∀ (l : List α) (ys : List β), l.mapM f = .ok ys →
      ∀ x ∈ l, ∃ y, f x = .ok y := by
  intro l
  induction l with
  | nil => intro ys h x hx; cases hx
  | cons a t ih =>
      intro ys h x hx
      rw [List.mapM_cons] at h
      cases ha : f a with
      | error e =>
          rw [ha] at h
          cases h
      | ok y =>
          rw [ha] at h
          cases ht : t.mapM f with
          | error e =>
              rw [ht] at h
              cases h
          | ok ys2 =>
              rcases List.mem_cons.mp hx with rfl | hxt
              · exact ⟨y, ha⟩
              · exact ih ys2 ht x hxt

lemma convertPcm_even_ok (chars : List Nat) (heven : chars.length % 2 = 0)
    (hpos : 0 < chars.length) :
    convertPcmToAudioBuffer 16 24000 chars =
      Except.ok
        { length := chars.length / 2
          sampleRate := 24000
          channelData :=
            (List.range (chars.length / 2)).map (pcmSampleValue chars) } := by
  unfold convertPcmToAudioBuffer
  dsimp only
  rw [if_neg (by simp [base64ToArrayBuffer]; omega)]
  have hblen : (base64ToArrayBuffer chars).length = chars.length := by
    simp [base64ToArrayBuffer]
  have hiter : ((base64ToArrayBuffer chars).length + 16 / 8 - 1) / (16 / 8) =
      chars.length / 2 := by
    rw [hblen]
    omega
  rw [hiter]
  have hget : ∀ i ∈ List.range (chars.length / 2),
      getInt16 (base64ToArrayBuffer chars) (i * (16 / 8)) =
        .ok (let lo := chars.getD (2 * i) 0 % 256
             let hi := chars.getD (2 * i + 1) 0 % 256
             let u := lo + 256 * hi
             if u < 32768 then (u : Int) else (u : Int) - 65536) := by
    intro i hi
    have hilt : i < chars.length / 2 := List.mem_range.mp hi
    have h2i : 2 * i < chars.length := by omega
    have h2i1 : 2 * i + 1 < chars.length := by omega
    have hoff : i * (16 / 8) = 2 * i := by omega
    rw [hoff]
    unfold getInt16
    rw [get?_eq_some_getD (base64ToArrayBuffer chars) (2 * i) 0
        (by rw [hblen]; exact h2i),
      get?_eq_some_getD (base64ToArrayBuffer chars) (2 * i + 1) 0
        (by rw [hblen]; exact h2i1)]
    have hgd : ∀ k, k < chars.length →
        (base64ToArrayBuffer chars).getD k 0 = chars.getD k 0 % 256 := by
      intro k hk
      unfold base64ToArrayBuffer
      rw [List.getD_eq_get?, List.getD_eq_get?, List.get?_map]
      rw [get?_eq_some_getD chars k 0 hk]
      rfl
    rw [hgd (2 * i) h2i, hgd (2 * i + 1) h2i1]
  rw [mapM_ok_of_forall _ _ (List.range (chars.length / 2)) hget]
  dsimp only [Except.map]
  have hdiv : (base64ToArrayBuffer chars).length / (16 / 8) =
      chars.length / 2 := by
    rw [hblen]
  simp only [Except.ok.injEq, AudioBuffer.mk.injEq]
  refine ⟨hdiv, by trivial, ?_⟩
  rw [List.map_map, hdiv, List.take_of_length_le (by simp)]
  apply List.map_congr_left
  intro i hi
  simp only [Function.comp_apply, pcmSampleValue]
  norm_num

lemma convertPcm_bad (chars : List Nat)
    (h : chars.length % 2 = 1 ∨ chars.length = 0) :
    convertPcmToAudioBuffer 16 24000 chars = Except.error () := by
  unfold convertPcmToAudioBuffer
  dsimp only
  have hblen : (base64ToArrayBuffer chars).length = chars.length := by
    simp [base64ToArrayBuffer]
  by_cases hsmall : chars.length / 2 = 0
  · rw [if_pos (by rw [hblen]; omega)]
  · rw [if_neg (by rw [hblen]; omega)]
    have hodd : chars.length % 2 = 1 := by
      rcases h with h1 | h0
      · exact h1
      · omega
    have hL3 : 3 ≤ chars.length := by omega
    cases hmapM : ((List.range (((base64ToArrayBuffer chars).length + 16 / 8
        - 1) / (16 / 8))).mapM
        (fun i => getInt16 (base64ToArrayBuffer chars) (i * (16 / 8)))) with
    | error e =>
        rfl
    | ok ys =>
        exfalso
        have hlast : (chars.length - 1) / 2 ∈
            List.range (((base64ToArrayBuffer chars).length + 16 / 8 - 1) /
              (16 / 8)) := by
          rw [List.mem_range, hblen]
          omega
        obtain ⟨y, hy⟩ := mapM_ok_forall _ _ ys hmapM _ hlast
        have hoff : (chars.length - 1) / 2 * (16 / 8) = chars.length - 1 := by
          have h2 : (16 : Nat) / 8 = 2 := rfl
          rw [h2]
          omega
        rw [hoff] at hy
        unfold getInt16 at hy
        rw [get?_eq_some_getD (base64ToArrayBuffer chars) (chars.length - 1) 0
            (by rw [hblen]; omega),
          show (base64ToArrayBuffer chars).get? (chars.length - 1 + 1) = none
            from List.get?_eq_none.mpr (by rw [hblen]; omega)] at hy
        cases hy

/-! Theorems settling the claims. -/

/-- C1: over any sequence of playAudioChunk calls with no intervening
stopAllAudio, the scheduler cursor nextPlaybackTime never decreases, every
accepted chunk is scheduled at least 1/20 s (50 ms) after the audio clock
reading at its call, and consecutive accepted chunks are separated by at
least the earlier chunk's duration plus the 1/100 s (10 ms) gap. -/
theorem playAudioChunk_monotonic_scheduling (p : AudioPlayer)
    (calls : List ChunkCall) :
    p.nextPlaybackTime ≤ (runChunksLog p calls).1.nextPlaybackTime
    ∧ (∀ s ∈ (runChunksLog p calls).2, s.schedTime + 1 / 20 ≤ s.startTime)
    ∧ List.Chain' (fun a b => a.startTime + a.duration + 1 / 100 ≤ b.startTime)
        (runChunksLog p calls).2 := by
  obtain ⟨h1, h2, h3⟩ := runChunksLog_spec calls p
  exact ⟨h1, fun s hs => (h2 s hs).1, h3⟩

/-- Witness for C1: the accepted chunk of a concrete one-call trace is
scheduled 1/20 s after the clock reading 0 of its call. -/
theorem playAudioChunk_monotonic_scheduling_witness :
    demoSched ∈ (runChunksLog mkPlayer [demoCall1]).2
    ∧ demoSched.schedTime + 1 / 20 ≤ demoSched.startTime := by
  have hmem : demoSched ∈ (runChunksLog mkPlayer [demoCall1]).2 := by
    rw [evalLog1]
    simp
  exact ⟨hmem,
    (playAudioChunk_monotonic_scheduling mkPlayer [demoCall1]).2.1
      demoSched hmem⟩

/-- C3: stopAllAudio raises no error (every active handle is stopped behind
a try/catch, a raising stop included) and returns the reset state: empty
active set (so getStats reports zero active sources), nextPlaybackTime equal
to the clock reading of the call, and an empty dedup window, so no
previously seen frame id is still a duplicate; a chunk subsequently accepted
at a clock reading now2 ≥ now is scheduled at now2 + 1/20, at least the
current clock, not at the stale cursor. -/
theorem stopAllAudio_clears_state (p : AudioPlayer) (now : ℚ)
    (hc : p.audioContext.isSome = true) :
    stopAllAudio p now = Except.ok (stopResetState p now)
    ∧ (getStats (stopResetState p now)).activeSourcesCount = 0
    ∧ (stopResetState p now).nextPlaybackTime = now
    ∧ (stopResetState p now).processedIds = []
    ∧ (∀ fid : String, (isDuplicate (stopResetState p now) (some fid)).2 = false)
    ∧ (∀ (now2 : ℚ) (d : Option (List Nat)) (f r : Option String)
        (q : AudioPlayer), now ≤ now2 →
        playAudioChunk (stopResetState p now) now2 d f r = (q, true) →
        ∃ s : SourceNode, q.activeAudioSources = [s] ∧
          s.startTime = now2 + 1 / 20 ∧ now2 ≤ s.startTime) := by
  refine ⟨stopAllAudio_ok p now, rfl, ?_, rfl, ?_, ?_⟩
  · simp [stopResetState, hc]
  · intro fid
    by_cases hfe : fid = "" <;> simp [isDuplicate, stopResetState, hfe]
  · intro now2 d f r q hle h
    obtain ⟨ids, rid, ctx, src, rfl, -, hst, -⟩ := playAudioChunk_true_shape h
    have hnext : (stopResetState p now).nextPlaybackTime = now := by
      simp [stopResetState, hc]
    have hact : (stopResetState p now).activeAudioSources = [] := rfl
    refine ⟨src, by simp [hact], ?_, ?_⟩
    · rw [hst, hnext, if_pos (by linarith)]
    · rw [hst, hnext, if_pos (by linarith)]
      linarith

/-- Witness for C3 at a concrete player whose single active source would
raise on stop and whose dedup window is non-empty. -/
theorem stopAllAudio_clears_state_witness :
    busyPlayer.audioContext.isSome = true
    ∧ stopAllAudio busyPlayer 2 = Except.ok (stopResetState busyPlayer 2) :=
  ⟨rfl, (stopAllAudio_clears_state busyPlayer 2 rfl).1⟩

/-- C9: interrupt produces exactly the stopAllAudio post-state for every
optional responseId argument and every player state, differing only in the
reported response id, which is the currently tracked response when no
argument is given. -/
theorem interrupt_equiv_stopAllAudio (p : AudioPlayer) (now : ℚ)
    (rid : Option String) :
    Except.map (fun t => t.1) (interrupt p now rid) = stopAllAudio p now
    ∧ interrupt p now none =
        Except.ok (stopResetState p now, true, p.currentResponseId) := by
  constructor
  · unfold interrupt
    rw [stopAllAudio_ok]
    rfl
  · unfold interrupt
    rw [stopAllAudio_ok]
    rfl

/-- C6: playAudioChunk is a total function (the catch absorbs every internal
failure, so nothing propagates to the caller); it returns the unchanged
state and false when the player is disabled, uninitialized or muted, or when
the frame is a duplicate - duplicate status per the source's falsy-id check,
i.e. a seen, non-empty frame id (an absent or empty id is never a duplicate
and passes through); and every call returning false leaves
nextPlaybackTime, the frame count and the active set unchanged. -/
theorem playAudioChunk_error_handling (p : AudioPlayer) (now : ℚ)
    (d : Option (List Nat)) (f r : Option String) :
    ((!p.isEnabled || p.audioContext.isNone || p.isMuted) = true →
        playAudioChunk p now d f r = (p, false))
    ∧ (∀ fid : String, f = some fid → fid ≠ "" → fid ∈ p.processedIds →
        playAudioChunk p now d f r = (p, false))
    ∧ ((playAudioChunk p now d f r).2 = false →
        (playAudioChunk p now d f r).1.nextPlaybackTime = p.nextPlaybackTime
        ∧ (playAudioChunk p now d f r).1.frameCount = p.frameCount
        ∧ (playAudioChunk p now d f r).1.activeAudioSources =
            p.activeAudioSources) := by
  refine ⟨fun h => playAudioChunk_guard h, ?_, ?_⟩
  · intro fid hf hne hmem
    subst hf
    cases hgu : (!p.isEnabled || p.audioContext.isNone || p.isMuted) with
    | true => exact playAudioChunk_guard hgu
    | false => exact playAudioChunk_dup hgu hne hmem
  · intro h
    have hres : playAudioChunk p now d f r =
        ((playAudioChunk p now d f r).1, false) := by
      rw [← h]
    exact playAudioChunk_false_fields hres

/-- Witness for C6: the guard clause at a disabled player and the duplicate
clause at a player that has already seen the frame id. -/
theorem playAudioChunk_error_handling_witness :
    ((!disabledPlayer.isEnabled || disabledPlayer.audioContext.isNone ||
        disabledPlayer.isMuted) = true
      ∧ playAudioChunk disabledPlayer 0 none none none =
          (disabledPlayer, false))
    ∧ (("f1" : String) ≠ "" ∧ "f1" ∈ busyPlayer.processedIds
      ∧ playAudioChunk busyPlayer 0 none (some "f1") none =
          (busyPlayer, false)) :=
  ⟨⟨rfl, (playAudioChunk_error_handling disabledPlayer 0 none none none).1
      rfl⟩,
    ⟨by decide, by decide,
      (playAudioChunk_error_handling busyPlayer 0 none (some "f1") none).2.1
        "f1" rfl (by decide) (by decide)⟩⟩

/-- C7: toggleMute flips the muted flag and returns the new state; when the
result is muted the gain level is forced to 0, and when it is unmuted the
level is set to the fixed default 1/2 regardless of the level held before. -/
theorem toggleMute_forces_default (p : AudioPlayer) (g : ℚ)
    (hg : p.gainNode = some g) :
    (toggleMute p).2 = !p.isMuted
    ∧ (toggleMute p).1.isMuted = !p.isMuted
    ∧ (toggleMute p).1.gainNode = some (if !p.isMuted then 0 else 1 / 2) := by
  unfold toggleMute
  refine ⟨rfl, rfl, ?_⟩
  simp only [hg]

/-- Witness for C7 on the fresh player: muting forces the level to 0 even
though the level was 1/2. -/
theorem toggleMute_forces_default_witness :
    mkPlayer.gainNode = some (1 / 2)
    ∧ (toggleMute mkPlayer).1.gainNode =
        some (if !mkPlayer.isMuted then 0 else 1 / 2) :=
  ⟨rfl, (toggleMute_forces_default mkPlayer (1 / 2) rfl).2.2⟩

/-- C5: from a player with the microphone inactive and gain level v, any
positive number of consecutive setMicrophoneActive(true) calls ducks the
level to v * 3/10 exactly once, keeping the captured pre-duck level v (later
calls are no-ops and never overwrite it with the ducked value), and a
following setMicrophoneActive(false) restores the level to v. -/
theorem setMicrophoneActive_roundtrip (p : AudioPlayer) (v : ℚ) (n : Nat)
    (hmic : p.microphoneActive = false) (hg : p.gainNode = some v)
    (hn : 1 ≤ n) :
    ((fun s => setMicrophoneActive s true)^[n] p).gainNode =
        some (v * (3 / 10))
    ∧ ((fun s => setMicrophoneActive s true)^[n] p).originalVolume = v
    ∧ (setMicrophoneActive ((fun s => setMicrophoneActive s true)^[n] p)
        false).gainNode = some v := by
  have hfix : ∀ m, (fun s => setMicrophoneActive s true)^[m]
      (setMicrophoneActive p true) = setMicrophoneActive p true := by
    intro m
    induction m with
    | zero => rfl
    | succ k ih =>
        rw [Function.iterate_succ_apply', ih]
        exact duck_idem (by rw [duck_once hmic hg])
  obtain ⟨k, rfl⟩ : ∃ k, n = k + 1 :=
    ⟨n - 1, by omega⟩
  rw [Function.iterate_succ_apply, hfix k, duck_once hmic hg]
  refine ⟨rfl, rfl, ?_⟩
  unfold setMicrophoneActive
  rw [if_neg (by simp)]
  rfl

/-- Witness for C5 on the fresh player with two consecutive duck calls. -/
theorem setMicrophoneActive_roundtrip_witness :
    mkPlayer.microphoneActive = false ∧ mkPlayer.gainNode = some (1 / 2)
    ∧ 1 ≤ 2
    ∧ (setMicrophoneActive
        ((fun s => setMicrophoneActive s true)^[2] mkPlayer) false).gainNode =
        some (1 / 2) :=
  ⟨rfl, rfl, by omega,
    (setMicrophoneActive_roundtrip mkPlayer (1 / 2) 2 rfl rfl (by omega)).2.2⟩

/-- Helper: the 1001 witness ids are pairwise distinct. -/
lemma witIds_nodup : witIds.Nodup := by
  have hinj : Function.Injective
      (fun n => String.mk (List.replicate (n + 1) 'a')) := by
    intro a b h
    have hdata : List.replicate (a + 1) 'a' = List.replicate (b + 1) 'a' :=
      congrArg String.data h
    have hlen := congrArg List.length hdata
    simpa using hlen
  unfold witIds
  exact (List.nodup_range 1001).map hinj

/-- Helper: every witness id is non-empty. -/
lemma witIds_ne_empty : ∀ i ∈ witIds, i ≠ "" := by
  intro i hi
  unfold witIds at hi
  obtain ⟨n, -, rfl⟩ := List.mem_map.mp hi
  intro hc
  have h0 : ("" : String) = String.mk [] := rfl
  rw [h0] at hc
  have hdata : List.replicate (n + 1) 'a' = [] := congrArg String.data hc
  simp at hdata

/-- Helper: there are 1001 witness ids. -/
lemma witIds_length : witIds.length = 1001 := by simp [witIds]

/-- Counterexample to C4 as stated: the 1001 pairwise distinct ids cexIds
start with the empty string, which the source's falsy-id check never
records, so after processing all 1001 the window holds the 1000 non-empty
ids, the trim never fires, and the asserted bound of 901 fails. -/
theorem dedupWindow_bound_cex :
    cexIds.Nodup ∧ cexIds.length = 1001
    ∧ (processIds mkPlayer cexIds).processedIds.length = 1000
    ∧ ¬ (processIds mkPlayer cexIds).processedIds.length ≤ 901 := by
  have htake_nd : (witIds.take 1000).Nodup :=
    List.Nodup.sublist (List.take_sublist 1000 witIds) witIds_nodup
  have hne_take : ∀ i ∈ witIds.take 1000, i ≠ "" := fun i hi =>
    witIds_ne_empty i (List.take_subset 1000 witIds hi)
  have hnodcex : cexIds.Nodup := by
    unfold cexIds
    refine List.nodup_cons.mpr ⟨?_, htake_nd⟩
    intro hc
    exact hne_take "" hc rfl
  have hlencex : cexIds.length = 1001 := by
    simp [cexIds, List.length_take, witIds_length]
  have hone : processIds mkPlayer cexIds =
      processIds mkPlayer (witIds.take 1000) := by
    unfold cexIds
    rw [processIds_cons, isDuplicate_empty]
  have hfill : (processIds mkPlayer (witIds.take 1000)).processedIds =
      witIds.take 1000 := by
    have hfl := processIds_fill (witIds.take 1000) mkPlayer hne_take
      (by simpa [mkPlayer] using htake_nd)
      (by simp [mkPlayer, List.length_take, witIds_length])
    simpa [mkPlayer] using hfl
  have hlen1000 : (processIds mkPlayer cexIds).processedIds.length = 1000 := by
    rw [hone, hfill]
    simp [List.length_take, witIds_length]
  refine ⟨hnodcex, hlencex, hlen1000, ?_⟩
  rw [hlen1000]
  omega

/-- C4 as amended: one isDuplicate call on a window within the 1000-entry
bound leaves it within the bound, and processing 1001 distinct NON-EMPTY
frame ids from an empty window leaves exactly the last 901 of them (the
oldest 100 are trimmed in insertion order), each of the first 100 no longer
considered a duplicate when resent.  An empty-string id is exempt from
deduplication like an absent one (the source's falsy-id check) and is never
tracked, so a list containing the empty id leaves 1000 ids and no trim. -/
theorem dedupWindow_bound (q p : AudioPlayer) (fid : Option String)
    (l : List String)
    (hq : q.processedIds.length ≤ 1000)
    (hp : p.processedIds = [])
    (hne : ∀ i ∈ l, i ≠ "")
    (hnd : l.Nodup) (hlen : l.length = 1001) :
    ((isDuplicate q fid).1).processedIds.length ≤ 1000
    ∧ (processIds p l).processedIds = l.drop 100
    ∧ (processIds p l).processedIds.length = 901
    ∧ (∀ i ∈ l.take 100, (isDuplicate (processIds p l) (some i)).2 = false) := by
  have htrim := processIds_trim l p hp hne hnd hlen
  refine ⟨?_, htrim, ?_, ?_⟩
  · cases fid with
    | none => simpa [isDuplicate] using hq
    | some f =>
        by_cases hfe : f = ""
        · subst hfe
          rw [isDuplicate_empty]
          exact hq
        · by_cases hm : f ∈ q.processedIds
          · rw [isDuplicate_mem hfe hm]
            exact hq
          · rw [isDuplicate_not_mem hfe hm]
            simp only
            unfold cleanupProcessedIds
            split
            · simp only [List.length_drop, List.length_append,
                List.length_singleton]
              omega
            · case _ hc =>
                simp only [List.length_append, List.length_singleton] at hc ⊢
                omega
  · rw [htrim]
    simp [hlen]
  · intro i hi
    have hine : i ≠ "" := hne i (List.take_subset 100 l hi)
    have hdisj : i ∉ l.drop 100 := by
      intro hc
      have hnd2 : (l.take 100 ++ l.drop 100).Nodup := by
        rw [List.take_append_drop]
        exact hnd
      exact (List.nodup_append.mp hnd2).2.2 hi hc
    rw [show (isDuplicate (processIds p l) (some i)).2 = false ↔ True by
      simp [isDuplicate, htrim, hdisj, hine]]
    trivial

/-- Witness for C4 amended: 1001 concrete pairwise distinct non-empty ids
processed from the fresh player leave a window of exactly 901 ids. -/
theorem dedupWindow_bound_witness :
    mkPlayer.processedIds.length ≤ 1000 ∧ mkPlayer.processedIds = []
    ∧ (∀ i ∈ witIds, i ≠ "") ∧ witIds.Nodup ∧ witIds.length = 1001
    ∧ (processIds mkPlayer witIds).processedIds.length = 901 := by
  exact ⟨by simp [mkPlayer], rfl, witIds_ne_empty, witIds_nodup,
    witIds_length,
    (dedupWindow_bound mkPlayer mkPlayer none witIds (by simp [mkPlayer]) rfl
      witIds_ne_empty witIds_nodup witIds_length).2.2.1⟩

/-- Helper: an accepted call with the empty frame id on the fresh player;
the source's falsy-id check records nothing in the dedup window. -/
lemma evalPlayEmpty1 : playAudioChunk mkPlayer 0 (some [0, 0]) (some "")
    none = (demoAfterEmpty1, true) := by
  have hgu : (!mkPlayer.isEnabled || mkPlayer.audioContext.isNone ||
      mkPlayer.isMuted) = false := rfl
  rw [playAudioChunk_emptyId hgu]
  have h2 : trackResponseId mkPlayer none = mkPlayer := rfl
  have h3 : resumeIfSuspended mkPlayer = mkPlayer := by
    norm_num [resumeIfSuspended, mkPlayer]
  rw [h2, h3, playAudioChunkTry_ok convert_zeroPair rfl]
  norm_num [AudioBuffer.duration, mkPlayer, demoSrc, demoAfterEmpty1]

/-- Helper: a failing call (odd payload) with the empty frame id leaves the
fresh player completely unchanged: nothing is recorded. -/
lemma evalPlayEmptyFail : playAudioChunk mkPlayer 0 (some [0]) (some "")
    none = (mkPlayer, false) := by
  have hgu : (!mkPlayer.isEnabled || mkPlayer.audioContext.isNone ||
      mkPlayer.isMuted) = false := rfl
  rw [playAudioChunk_emptyId hgu]
  have h2 : trackResponseId mkPlayer none = mkPlayer := rfl
  have h3 : resumeIfSuspended mkPlayer = mkPlayer := by
    norm_num [resumeIfSuspended, mkPlayer]
  rw [h2, h3, playAudioChunkTry_err convert_oddByte]

/-- Counterexample to C8 as stated: with the empty frame id (a legal value
of frameId) on the enabled, unmuted fresh player, the source's falsy-id
check exempts the frame from deduplication, so both calls with the same id
and payload are accepted and two buffers are scheduled; the second call does
not return false. -/
theorem playAudioChunk_dedup_idempotent_cex :
    (playAudioChunk mkPlayer 0 (some [0, 0]) (some "") none).2 = true
    ∧ (playAudioChunk (playAudioChunk mkPlayer 0 (some [0, 0]) (some "")
        none).1 0 (some [0, 0]) (some "") none).2 = true
    ∧ (playAudioChunk (playAudioChunk mkPlayer 0 (some [0, 0]) (some "")
        none).1 0 (some [0, 0]) (some "")
        none).1.activeAudioSources.length = 2 := by
  have hgu2 : (!demoAfterEmpty1.isEnabled ||
      demoAfterEmpty1.audioContext.isNone || demoAfterEmpty1.isMuted) =
      false := rfl
  have h2b : trackResponseId demoAfterEmpty1 none = demoAfterEmpty1 := rfl
  have h3b : resumeIfSuspended demoAfterEmpty1 = demoAfterEmpty1 := by
    norm_num [resumeIfSuspended, demoAfterEmpty1, mkPlayer]
  have hconv2 : convertPcmToAudioBuffer demoAfterEmpty1.bitDepth
      demoAfterEmpty1.sampleRate [0, 0] =
      Except.ok { length := 1, sampleRate := 24000, channelData := [0] } :=
    convert_zeroPair
  have hg2 : demoAfterEmpty1.gainNode = some (1 / 2) := rfl
  refine ⟨?_, ?_, ?_⟩
  · rw [evalPlayEmpty1]
  · rw [evalPlayEmpty1]
    show (playAudioChunk demoAfterEmpty1 0 (some [0, 0]) (some "") none).2 =
      true
    rw [playAudioChunk_emptyId hgu2, h2b, h3b,
      playAudioChunkTry_ok hconv2 hg2]
  · rw [evalPlayEmpty1]
    show (playAudioChunk demoAfterEmpty1 0 (some [0, 0]) (some "")
      none).1.activeAudioSources.length = 2
    rw [playAudioChunk_emptyId hgu2, h2b, h3b,
      playAudioChunkTry_ok hconv2 hg2]
    simp [demoAfterEmpty1]

/-- C8 as amended: on an enabled, initialized, unmuted player with a working
gain node, a call with a fresh NON-EMPTY frame id and a decodable payload is
accepted (one buffer decoded and scheduled: frame count and active set grow
by one), and an immediately following call with the same frame id and
payload is rejected with no state change at all.  An empty frame id is
exempt from deduplication (the source's falsy-id check), so repeated
empty-id frames are all played. -/
theorem playAudioChunk_dedup_idempotent (p : AudioPlayer) (now now2 : ℚ)
    (chars : List Nat) (fid : String) (r r2 : Option String) (b : AudioBuffer)
    (hen : p.isEnabled = true) (hctx : p.audioContext.isNone = false)
    (hm : p.isMuted = false) (hne : fid ≠ "")
    (hfresh : fid ∉ p.processedIds)
    (hg : p.gainNode.isSome = true)
    (hdec : convertPcmToAudioBuffer p.bitDepth p.sampleRate chars =
      Except.ok b) :
    (playAudioChunk p now (some chars) (some fid) r).2 = true
    ∧ (playAudioChunk p now (some chars) (some fid) r).1.frameCount =
        p.frameCount + 1
    ∧ (playAudioChunk p now (some chars) (some fid)
        r).1.activeAudioSources.length = p.activeAudioSources.length + 1
    ∧ playAudioChunk (playAudioChunk p now (some chars) (some fid) r).1 now2
        (some chars) (some fid) r2 =
        ((playAudioChunk p now (some chars) (some fid) r).1, false) := by
  obtain ⟨g, hgg⟩ := Option.isSome_iff_exists.mp hg
  have hgu : (!p.isEnabled || p.audioContext.isNone || p.isMuted) = false := by
    rw [hen, hctx, hm]
    rfl
  have hacc : (playAudioChunk p now (some chars) (some fid) r).2 = true :=
    playAudioChunk_accepts hgu hne hfresh hgg hdec
  have hres : playAudioChunk p now (some chars) (some fid) r =
      ((playAudioChunk p now (some chars) (some fid) r).1, true) := by
    rw [← hacc]
  obtain ⟨ids, rid, ctx, src, hq, hor, hst, hdur⟩ :=
    playAudioChunk_true_shape hres
  have hmem : fid ∈ (playAudioChunk p now (some chars) (some fid)
      r).1.processedIds :=
    playAudioChunk_mem_processedIds hgu hne hres
  have hgu2 := (playAudioChunk_guard_preserved hgu hres).1
  refine ⟨hacc, ?_, ?_, playAudioChunk_dup hgu2 hne hmem⟩
  · rw [hq]
  · rw [hq]
    simp

/-- Witness for C8 amended on the fresh player with a one-sample payload. -/
theorem playAudioChunk_dedup_idempotent_witness :
    mkPlayer.isEnabled = true ∧ mkPlayer.audioContext.isNone = false
    ∧ mkPlayer.isMuted = false ∧ ("f1" : String) ≠ ""
    ∧ "f1" ∉ mkPlayer.processedIds
    ∧ mkPlayer.gainNode.isSome = true
    ∧ convertPcmToAudioBuffer mkPlayer.bitDepth mkPlayer.sampleRate [0, 0] =
        Except.ok { length := 1, sampleRate := 24000, channelData := [0] }
    ∧ (playAudioChunk mkPlayer 0 (some [0, 0]) (some "f1") none).2 = true := by
  refine ⟨rfl, rfl, rfl, by decide, by simp [mkPlayer], rfl, convert_zeroPair,
    ?_⟩
  exact (playAudioChunk_dedup_idempotent mkPlayer 0 0 [0, 0] "f1" none none
    { length := 1, sampleRate := 24000, channelData := [0] } rfl rfl rfl
    (by decide) (by simp [mkPlayer]) rfl convert_zeroPair).1

/-- Counterexample to C10 as stated: a failing call (odd payload) with the
empty frame id records nothing - the source's falsy-id check skips the dedup
window entirely - so a retry with a corrected payload is accepted and
played, not rejected as a duplicate. -/
theorem dedup_records_failed_frame_cex :
    (playAudioChunk mkPlayer 0 (some [0]) (some "") none).2 = false
    ∧ (playAudioChunk mkPlayer 0 (some [0]) (some "")
        none).1.processedIds = []
    ∧ (playAudioChunk (playAudioChunk mkPlayer 0 (some [0]) (some "")
        none).1 0 (some [0, 0]) (some "") none).2 = true := by
  refine ⟨?_, ?_, ?_⟩
  · rw [evalPlayEmptyFail]
  · rw [evalPlayEmptyFail]
    rfl
  · rw [evalPlayEmptyFail]
    show (playAudioChunk mkPlayer 0 (some [0, 0]) (some "") none).2 = true
    rw [evalPlayEmpty1]

/-- C10 as amended: when a call with a fresh NON-EMPTY frame id passes the
guard but fails later (returns false), the frame id is already recorded in
the dedup window: a retry with the same frame id and any payload is rejected
as a duplicate with no state change, until stopAllAudio empties the window.
A failed call with an empty frame id records nothing (the source's falsy-id
check), so such a retry is played. -/
theorem dedup_records_failed_frame (p : AudioPlayer) (now now2 now3 : ℚ)
    (d d2 : Option (List Nat)) (fid : String) (r r2 : Option String)
    (hen : p.isEnabled = true) (hctx : p.audioContext.isNone = false)
    (hm : p.isMuted = false) (hne : fid ≠ "")
    (hfresh : fid ∉ p.processedIds)
    (hfail : (playAudioChunk p now d (some fid) r).2 = false) :
    fid ∈ (playAudioChunk p now d (some fid) r).1.processedIds
    ∧ playAudioChunk (playAudioChunk p now d (some fid) r).1 now2 d2
        (some fid) r2 = ((playAudioChunk p now d (some fid) r).1, false)
    ∧ (∀ q : AudioPlayer,
        stopAllAudio (playAudioChunk p now d (some fid) r).1 now3 =
          Except.ok q → fid ∉ q.processedIds) := by
  have hgu : (!p.isEnabled || p.audioContext.isNone || p.isMuted) = false := by
    rw [hen, hctx, hm]
    rfl
  have hres : playAudioChunk p now d (some fid) r =
      ((playAudioChunk p now d (some fid) r).1,
        (playAudioChunk p now d (some fid) r).2) := rfl
  have hmem : fid ∈ (playAudioChunk p now d (some fid) r).1.processedIds :=
    playAudioChunk_mem_processedIds hgu hne hres
  have hgu2 := (playAudioChunk_guard_preserved hgu hres).1
  refine ⟨hmem, playAudioChunk_dup hgu2 hne hmem, ?_⟩
  intro q hstop
  rw [stopAllAudio_ok] at hstop
  injection hstop with h1
  rw [← h1]
  simp [stopResetState]

/-- Witness for C10 amended: an odd-length payload makes the first call fail
after recording the non-empty frame id, and the retry is rejected. -/
theorem dedup_records_failed_frame_witness :
    mkPlayer.isEnabled = true ∧ mkPlayer.audioContext.isNone = false
    ∧ mkPlayer.isMuted = false ∧ ("f1" : String) ≠ ""
    ∧ "f1" ∉ mkPlayer.processedIds
    ∧ (playAudioChunk mkPlayer 0 (some [0]) (some "f1") none).2 = false
    ∧ "f1" ∈ (playAudioChunk mkPlayer 0 (some [0]) (some "f1")
        none).1.processedIds := by
  have hgu : (!mkPlayer.isEnabled || mkPlayer.audioContext.isNone ||
      mkPlayer.isMuted) = false := rfl
  have hfr : "f1" ∉ mkPlayer.processedIds := by simp [mkPlayer]
  have h1 : cleanupProcessedIds
      { mkPlayer with processedIds := mkPlayer.processedIds ++ ["f1"] } =
      { mkPlayer with processedIds := ["f1"] } := by
    norm_num [cleanupProcessedIds, mkPlayer]
  have h2 : trackResponseId { mkPlayer with processedIds := ["f1"] } none =
      { mkPlayer with processedIds := ["f1"] } := rfl
  have h3 : resumeIfSuspended { mkPlayer with processedIds := ["f1"] } =
      { mkPlayer with processedIds := ["f1"] } := by
    norm_num [resumeIfSuspended, mkPlayer]
  have hfail : (playAudioChunk mkPlayer 0 (some [0]) (some "f1") none).2 =
      false := by
    rw [playAudioChunk_fresh hgu (by decide) hfr, h1, h2, h3,
      playAudioChunkTry_err convert_oddByte]
  exact ⟨rfl, rfl, rfl, by decide, hfr, hfail,
    (dedup_records_failed_frame mkPlayer 0 0 0 (some [0]) none "f1" none none
      rfl rfl rfl (by decide) hfr hfail).1⟩

/-- Counterexample to C2 as stated: the three-byte payload has L = 3 and
floor(3 / 2) = 1, so the claim predicts a returned buffer of one sample with
the trailing partial sample silently dropped, but convertPcmToAudioBuffer
raises instead (the loop runs ⌈3/2⌉ = 2 iterations and the second 16-bit
read is out of range), so no buffer is returned. -/
theorem convertPcm_partial_sample_cex :
    convertPcmToAudioBuffer 16 24000 [0, 0, 0] = Except.error ()
    ∧ ¬ ∃ b : AudioBuffer,
        convertPcmToAudioBuffer 16 24000 [0, 0, 0] = Except.ok b := by
  refine ⟨rfl, ?_⟩
  rintro ⟨b, hb⟩
  rw [show convertPcmToAudioBuffer 16 24000 [0, 0, 0] = Except.error ()
    from rfl] at hb
  cases hb

/-- C2 as amended: when the decoded byte length L is a positive multiple of
bytesPerSample = 2, the decoder returns a buffer of exactly L / 2 samples,
the i-th being the signed little-endian 16-bit integer at offset 2i divided
by 2^15; when L is odd or zero it does not truncate but raises (caught by
playAudioChunk and reported as false): a zero length is rejected by
createBuffer and a trailing partial sample causes an out-of-range read. -/
theorem convertPcm_decode_spec (chars : List Nat) :
    ((chars.length % 2 = 0 ∧ 0 < chars.length) →
      convertPcmToAudioBuffer 16 24000 chars =
        Except.ok
          { length := chars.length / 2
            sampleRate := 24000
            channelData :=
              (List.range (chars.length / 2)).map (pcmSampleValue chars) })
    ∧ ((chars.length % 2 = 1 ∨ chars.length = 0) →
      convertPcmToAudioBuffer 16 24000 chars = Except.error ()) :=
  ⟨fun h => convertPcm_even_ok chars h.1 h.2, fun h => convertPcm_bad chars h⟩

/-- Witness for C2 amended: the spec's five-sample vector
[0, 16384, -16384, 32767, -32768], encoded little-endian, decodes to
[0, 1/2, -1/2, 32767/32768, -1]. -/
theorem convertPcm_decode_spec_witness :
    (pcmVec.length % 2 = 0 ∧ 0 < pcmVec.length)
    ∧ convertPcmToAudioBuffer 16 24000 pcmVec =
        Except.ok
          { length := 5
            sampleRate := 24000
            channelData := [0, 1 / 2, -1 / 2, 32767 / 32768, -1] } := by
  have hpre : pcmVec.length % 2 = 0 ∧ 0 < pcmVec.length := by
    constructor
    · rfl
    · norm_num [pcmVec]
  have h := (convertPcm_decode_spec pcmVec).1 hpre
  refine ⟨hpre, ?_⟩
  rw [h]
  norm_num [pcmVec, pcmSampleValue, List.range_succ]

end DebugAudio
